import Mathlib

/-!
Verification development for `alcademic-scripts`, shallow embedding of
`src/alcademic_scripts/generate_meta_batch_files.py`.

The script reads a JSON array of paper-metadata records, repairs common
text-level malformations, converts each valid record into one batch-API
request line, and splits the lines over shard files of at most
`max_lines` lines each.  Strings are modelled as Lean `String`s (lists of
characters); the three regex substitutions of the repair pass are
modelled as character-list transformations with exactly the scanning
semantics of Python `re.sub`; the stateful writing loop is modelled as a
fold over an explicit pipeline state.
-/

/-- Character class of Python's `\s` under `re` Unicode semantics
(`Py_UNICODE_ISSPACE`): ASCII whitespace, the C0 separators
U+001C–U+001F, NEL U+0085, and the Unicode space characters. -/
def isPySpace (c : Char) : Bool :=
  c = ' ' || c = '\t' || c = '\n' || c = '\r' ||
  c.toNat = 0x0B || c.toNat = 0x0C ||
  (0x1C ≤ c.toNat && c.toNat ≤ 0x1F) || c.toNat = 0x85 || c.toNat = 0xA0 ||
  c.toNat = 0x1680 || (0x2000 ≤ c.toNat && c.toNat ≤ 0x200A) ||
  c.toNat = 0x2028 || c.toNat = 0x2029 || c.toNat = 0x202F ||
  c.toNat = 0x205F || c.toNat = 0x3000

/-- Python `str.strip()` on a character list: drop leading and trailing
whitespace. -/
def pyStrip (s : List Char) : List Char :=
  ((s.dropWhile isPySpace).reverse.dropWhile isPySpace).reverse

/-- Python `str.strip()` on a `String`. -/
def pyStripStr (s : String) : String :=
  String.mk (pyStrip s.data)

/-- Line 85-87: `re.sub(r'\\(?!")', r'\\\\', json_str)`.  The pattern
matches a single backslash whose next character is not a double quote
(the lookahead consumes nothing); the replacement is two backslashes.
`re.sub` scans left to right: at a backslash followed by a quote the
match attempt fails and scanning resumes at the next character (the
quote, which can never start a match); at any other backslash the match
succeeds, the single backslash is replaced by two, and scanning resumes
after the matched character. -/
def fixBackslashes : List Char → List Char
  | [] => []
  | c :: rest =>
    if c = '\\' then
      if rest.head? = some '\"' then c :: fixBackslashes rest
      else c :: c :: fixBackslashes rest
    else c :: fixBackslashes rest

/-- One position of the claimed behaviour of the backslash repair step:
a backslash not immediately followed by a double quote is doubled, every
other character (including a backslash immediately followed by a double
quote) is left untouched. -/
def doubledHere (c : Char) (next : Option Char) : List Char :=
  if c = '\\' ∧ next ≠ some '\"' then [c, c] else [c]

/-- The backslash repair step as the specification words it: each
character is transformed by `doubledHere` applied to it and to its
successor. -/
def specFixBackslashes : List Char → List Char
  | [] => []
  | c :: rest => doubledHere c rest.head? ++ specFixBackslashes rest

/-- Line 91: character class `[\x00-\x1F\x7F-\x9F]` of the stripping
substitution `re.sub(r'[\x00-\x1F\x7F-\x9F]', '', corrected_json_text)`. -/
def isStrippedControl (c : Char) : Bool :=
  c.toNat ≤ 0x1F || (0x7F ≤ c.toNat && c.toNat ≤ 0x9F)

/-- Line 91: substituting the empty string for every character of a
one-character class removes exactly the characters of the class. -/
def stripControls (s : List Char) : List Char :=
  s.filter (fun c => !isStrippedControl c)

/-- The C0 and C1 control ranges as the specification names them: the C0
controls U+0000–U+001F together with DEL U+007F (grouped with the C0
range in the ISO/IEC 6429 C0-and-C1 scheme, Unicode category Cc), and
the C1 controls U+0080–U+009F. -/
def inC0orC1 (n : Nat) : Prop :=
  n ≤ 0x1F ∨ n = 0x7F ∨ (0x80 ≤ n ∧ n ≤ 0x9F)

instance (n : Nat) : Decidable (inC0orC1 n) := by
  unfold inC0orC1; infer_instance

/-- Line 94: `re.sub(r',\s*]', ']', corrected_json_text)`.  Scans left
to right; at a comma, the greedy `\s*` consumes the maximal run of
whitespace, and the match succeeds exactly when the character after that
run is `]` (backtracking cannot help since `]` is not whitespace); the
whole match `,\s*]` is replaced by `]` and scanning resumes after it.
At any other character scanning moves on one position. -/
def removeTrailingCommas (s : List Char) : List Char :=
  match s with
  | [] => []
  | c :: rest =>
    if c = ',' then
      if h : (rest.dropWhile isPySpace).head? = some ']' then
        ']' :: removeTrailingCommas (rest.dropWhile isPySpace).tail
      else ',' :: removeTrailingCommas rest
    else c :: removeTrailingCommas rest
termination_by s.length
decreasing_by
  · have h1 : (rest.dropWhile isPySpace).length ≤ rest.length :=
      (List.dropWhile_sublist isPySpace).length_le
    have h2 : rest.dropWhile isPySpace ≠ [] := by
      intro hnil
      rw [hnil] at h
      exact Option.noConfusion h
    have h3 : (rest.dropWhile isPySpace).tail.length <
        (rest.dropWhile isPySpace).length := by
      cases hd : rest.dropWhile isPySpace with
      | nil => exact absurd hd h2
      | cons a t => simp [hd]
    simp only [List.length_cons]
    omega
  · simp
  · simp

/-- Lines 85-94: the full repair pass in source order, backslash fix,
then control-character stripping, then trailing-comma removal. -/
def repairJsonText (s : List Char) : List Char :=
  removeTrailingCommas (stripControls (fixBackslashes s))

/-- Line 7 of the source. -/
def DEFAULT_SYSTEM_PROMPT : String :=
  "You are an expert assistant specialized in analyzing academic paper abstracts and extracting key information accurately and concisely."

/-- Lines 9-21 of the source. -/
def OUTPUT_FORMAT_INSTRUCTIONS : String :=
  "Output the result as a single JSON object in this exact format:\n\x7b\n    \"problemStatement\": \"(string | null) Concise description of the core research problem addressed (1-2 sentences).\",\n    \"methodology\": \"(string | null) Brief summary of the key method, technique, or approach proposed/used (1-2 short phrases or sentences).\",\n    \"codeLink\": \"(string | null) URL to the source code repository (e.g., GitHub), if mentioned explicitly in the abstract. Otherwise, null.\",\n    \"benchmark\": \"(string | null) Name of the specific benchmark dataset or evaluation task used, if mentioned (e.g., \"C-MAPSS dataset\", \"ImageNet\"). Otherwise, null.\",\n    \"dataset\": \"(string | null) Name of the primary dataset(s) used, if mentioned and different from the benchmark (e.g., \"NASA turbofan engine degradation simulation data\"). Otherwise, null.\",\n    \"results\": \"(string | null) Key quantitative results or main findings reported (e.g., \"cost rate lower than preventive maintenance\", \"computationally efficient framework using Gaussian processes\"). Otherwise, null.\",\n    \"keywords\": [\"Keyword 1\", \"Keyword 2\", ...] // List of keywords extracted from the abstract, if available, e.g. [\"Image Generation\", \"Depth Estimation\", \"Text to Speech\", \"3D Face Animation\"]. Otherwise, an empty list.\n\x7d\n\nUse null if information for a key cannot be clearly determined from the provided text. Do not add any explanations before or after the JSON object."

/-- The part of the user-prompt f-string (lines 35-46) that precedes the
interpolated author string. -/
def promptBeforeAuthors (title : String) : String :=
  "## Task: Analyze the following academic paper metadata and extract the specified information based SOLELY on the provided Title and Abstract.\n\n## Input Metadata:\nTitle: " ++ title ++ "\nAuthors: "

/-- The part of the user-prompt f-string (lines 35-46) that follows the
interpolated author string. -/
def promptAfterAuthors (clean_abstract : String) : String :=
  "\nAbstract: " ++ clean_abstract ++ "\n\n## Extraction Fields and Output Format:\n" ++ OUTPUT_FORMAT_INSTRUCTIONS ++ "\n\n## Extracted JSON:"

/-- The user-prompt f-string of lines 35-46: title, author string and
cleaned abstract interpolated into the fixed instructional template. -/
def userPromptText (title author_str clean_abstract : String) : String :=
  promptBeforeAuthors title ++ author_str ++ promptAfterAuthors clean_abstract

/-- Lines 23-48, `create_user_prompt`.  Python truthiness of a string is
modelled as being nonempty; an absent value is `none`.  Returns `none`
for a missing or empty abstract and for an abstract that is empty after
stripping; an absent or empty author string is replaced by the literal
placeholder `"N/A"`. -/
def create_user_prompt (title : String) (authors : Option String)
    (abstract : Option String) : Option String :=
  match abstract with
  | none => none
  | some ab =>
    if ab = "" then none
    else
      let clean_abstract := pyStripStr ab
      if clean_abstract = "" then none
      else
        let author_str :=
          match authors with
          | none => "N/A"
          | some au => if au = "" then "N/A" else pyStripStr au
        some (userPromptText title author_str clean_abstract)

/-- One element of the parsed metadata array that is a mapping
(lines 116-134): the results of `record.get('_id')`,
`record.get('title')`, `record.get('abstract')`, `record.get('author')`.
An absent key gives `none`. -/
structure MetadataRecord where
  id : Option String
  title : Option String
  abstract : Option String
  author : Option String
deriving DecidableEq

/-- Python truthiness of an optional string value: `None` and the empty
string are falsy. -/
def truthy : Option String → Bool
  | none => false
  | some s => !(s = "")

/-- One element of the parsed JSON array: either a mapping, read through
`dict.get`, or a non-mapping value (string, number, list, ...), on which
`record.get('_id')` at line 118 raises `AttributeError`. -/
inductive JsonItem where
  | record (r : MetadataRecord)
  | nonMapping
deriving DecidableEq

/-- One output line (lines 151-165): the `jsonl_line` object with its
`request_body`.  The two messages of the body are the configured system
prompt and the generated user prompt; `temperature` is the literal
string `"0.1"` of the source. -/
structure RequestLine where
  custom_id : String
  method : String
  url : String
  model : String
  system_content : String
  user_content : String
  temperature : String
deriving DecidableEq

/-- Lines 151-165: the request object built for one valid record. -/
def mkRequestLine (paper_id user_content model_name system_prompt : String) :
    RequestLine :=
  { custom_id := "extract-" ++ paper_id
    method := "POST"
    url := "/v4/chat/completions"
    model := model_name
    system_content := system_prompt
    user_content := user_content
    temperature := "0.1" }

/-- Lines 118-134 and 151-165 combined: what one array element that is a
mapping contributes.  `none` when the record is skipped (missing or
falsy `_id`/`title`/`abstract`, or abstract empty after stripping),
`some` of the request line otherwise. -/
def recordEmits (model_name system_prompt : String) (r : MetadataRecord) :
    Option RequestLine :=
  if !(truthy r.id && truthy r.title && truthy r.abstract) then none
  else
    match create_user_prompt (r.title.getD "") r.author r.abstract with
    | none => none
    | some user_content =>
      some (mkRequestLine (r.id.getD "") user_content model_name system_prompt)

/-- The mutable state of `convert_and_split_metadata` (lines 57-62),
together with a model of the filesystem and of the open file handle:
`shards` lists, in creation order, each created shard file as its
`file_index` at creation time (the file is named
`<prefix>_part_<file_index>.jsonl`) paired with the request lines
written to it; `fileOpen` records whether `outfile` is open; and
`sealedFiles` counts the files that have been closed. -/
structure PipelineState where
  total_processed_count : Nat
  total_skipped_count : Nat
  file_index : Nat
  line_count_current_file : Nat
  fileOpen : Bool
  sealedFiles : Nat
  shards : List (Nat × List RequestLine)
deriving DecidableEq

/-- Lines 57-62: counters at zero, `file_index = 1`, no file open, no
file created. -/
def initState : PipelineState :=
  { total_processed_count := 0
    total_skipped_count := 0
    file_index := 1
    line_count_current_file := 0
    fileOpen := false
    sealedFiles := 0
    shards := [] }

/-- Appends a request line to the last created shard file (the write of
lines 171-172 goes to the currently open file, which is always the most
recently created one).  On an empty shard list this models the guard of
line 168 (`outfile is None`), which is unreachable in a run that starts
from `initState`. -/
def appendToLast : List (Nat × List RequestLine) → RequestLine →
    List (Nat × List RequestLine)
  | [], _ => []
  | [(i, ls)], l => [(i, ls ++ [l])]
  | s :: rest, l => s :: appendToLast rest l

/-- Lines 136-149: when `line_count_current_file == 0` the previous file
(if open) is closed and a new file named with the current `file_index`
is created and opened; otherwise nothing happens. -/
def openIfNeeded (st : PipelineState) : PipelineState :=
  if st.line_count_current_file = 0 then
    { st with
      sealedFiles := if st.fileOpen then st.sealedFiles + 1 else st.sealedFiles
      fileOpen := true
      shards := st.shards ++ [(st.file_index, [])] }
  else st

/-- Lines 167-179: write the request line to the open file and advance
both line counters. -/
def writeLine (l : RequestLine) (st : PipelineState) : PipelineState :=
  { st with
    shards := appendToLast st.shards l
    line_count_current_file := st.line_count_current_file + 1
    total_processed_count := st.total_processed_count + 1 }

/-- Lines 181-185: when the current chunk is full
(`line_count_current_file >= max_lines`), advance `file_index` and reset
the line count; the file itself stays open and is closed at the start of
the next iteration that opens a new file, or after the loop. -/
def rotateIfFull (max_lines : Nat) (st : PipelineState) : PipelineState :=
  if max_lines ≤ st.line_count_current_file then
    { st with
      file_index := st.file_index + 1
      line_count_current_file := 0 }
  else st

/-- One iteration of the loop of lines 116-189 on a mapping element:
either the record is skipped and the skip counter incremented
(lines 124-134), or a file is opened if needed, the request line written
and the chunk rotated if full. -/
def processRecord (max_lines : Nat) (model_name system_prompt : String)
    (st : PipelineState) (r : MetadataRecord) : PipelineState :=
  match recordEmits model_name system_prompt r with
  | none => { st with total_skipped_count := st.total_skipped_count + 1 }
  | some l => rotateIfFull max_lines (writeLine l (openIfNeeded st))

/-- Result of the loop of lines 116-189: it either finishes normally or
raises on the first non-mapping element, to be caught by the generic
handler at lines 199-202. -/
inductive LoopResult where
  | ok (st : PipelineState)
  | abortedNonMapping (st : PipelineState)
deriving DecidableEq

/-- The loop of lines 116-189 over the parsed array. -/
def processItems (max_lines : Nat) (model_name system_prompt : String) :
    PipelineState → List JsonItem → LoopResult
  | st, [] => .ok st
  | st, .nonMapping :: _ => .abortedNonMapping st
  | st, .record r :: rest =>
    processItems max_lines model_name system_prompt
      (processRecord max_lines model_name system_prompt st r) rest

/-- Outcome of `json.loads` on the repaired text, plus the list check of
lines 100-101; the parser itself is external library code and enters the
model as this abstract outcome. -/
inductive ParseOutcome where
  | parseError
  | notAList
  | parsed (items : List JsonItem)
deriving DecidableEq

/-- Lines 139-141, 175, 193, 197, 201, 205-207: closing the open output
file, wherever the source does so. -/
def sealOpenFile (st : PipelineState) : PipelineState :=
  if st.fileOpen then
    { st with fileOpen := false, sealedFiles := st.sealedFiles + 1 }
  else st

/-- The observable outcome of `convert_and_split_metadata`, tagged by
which diagnostic path returned: invalid JSON (lines 102-104), input not
a list (lines 100-101 and 105-107), empty input array (lines 109-111),
the generic exception handler (lines 199-202), or normal completion
(lines 204-218). -/
inductive RunOutcome where
  | invalidJson (st : PipelineState)
  | inputNotList (st : PipelineState)
  | emptyInput (st : PipelineState)
  | unexpectedError (st : PipelineState)
  | finished (st : PipelineState)
deriving DecidableEq

/-- The pipeline state carried by an outcome. -/
def RunOutcome.state : RunOutcome → PipelineState
  | .invalidJson st => st
  | .inputNotList st => st
  | .emptyInput st => st
  | .unexpectedError st => st
  | .finished st => st

/-- Lines 77-218, `convert_and_split_metadata` after the repair pass,
with the result of parsing the repaired text supplied as `parse`.  On a
parse failure or a non-list value the function returns with nothing
written; on an empty list it returns reporting no output; otherwise it
runs the loop, closes the open file (lines 201 and 204-207) and reports. -/
def convert_and_split_metadata (max_lines : Nat)
    (model_name system_prompt : String) (parse : ParseOutcome) : RunOutcome :=
  match parse with
  | .parseError => .invalidJson initState
  | .notAList => .inputNotList initState
  | .parsed [] => .emptyInput initState
  | .parsed (i :: is) =>
    match processItems max_lines model_name system_prompt initState (i :: is) with
    | .abortedNonMapping st => .unexpectedError (sealOpenFile st)
    | .ok st => .finished (sealOpenFile st)

/-- Line 215: `final_file_count = file_index if line_count_current_file
== 0 and total_processed_count > 0 else file_index` — the two branches
of the source conditional are identical, so the reported count is always
`file_index`. -/
def reportedFileCount (st : PipelineState) : Nat :=
  if st.line_count_current_file = 0 ∧ 0 < st.total_processed_count then
    st.file_index
  else st.file_index

/-- Total number of request lines across all created shard files. -/
def totalLines (shards : List (Nat × List RequestLine)) : Nat :=
  (shards.map (fun s => s.2.length)).sum

/-- All request lines across all created shard files, in order. -/
def allRequests (shards : List (Nat × List RequestLine)) : List RequestLine :=
  (shards.map (fun s => s.2)).flatten

@[simp]
theorem rotateIfFull_processed (m : Nat) (st : PipelineState) :
    (rotateIfFull m st).total_processed_count = st.total_processed_count := by
  unfold rotateIfFull; split <;> rfl

@[simp]
theorem rotateIfFull_skipped (m : Nat) (st : PipelineState) :
    (rotateIfFull m st).total_skipped_count = st.total_skipped_count := by
  unfold rotateIfFull; split <;> rfl

@[simp]
theorem rotateIfFull_shards (m : Nat) (st : PipelineState) :
    (rotateIfFull m st).shards = st.shards := by
  unfold rotateIfFull; split <;> rfl

@[simp]
theorem rotateIfFull_fileOpen (m : Nat) (st : PipelineState) :
    (rotateIfFull m st).fileOpen = st.fileOpen := by
  unfold rotateIfFull; split <;> rfl

@[simp]
theorem rotateIfFull_sealed (m : Nat) (st : PipelineState) :
    (rotateIfFull m st).sealedFiles = st.sealedFiles := by
  unfold rotateIfFull; split <;> rfl

@[simp]
theorem openIfNeeded_processed (st : PipelineState) :
    (openIfNeeded st).total_processed_count = st.total_processed_count := by
  unfold openIfNeeded; split <;> rfl

@[simp]
theorem openIfNeeded_skipped (st : PipelineState) :
    (openIfNeeded st).total_skipped_count = st.total_skipped_count := by
  unfold openIfNeeded; split <;> rfl

@[simp]
theorem openIfNeeded_lc (st : PipelineState) :
    (openIfNeeded st).line_count_current_file = st.line_count_current_file := by
  unfold openIfNeeded; split <;> rfl

@[simp]
theorem openIfNeeded_fi (st : PipelineState) :
    (openIfNeeded st).file_index = st.file_index := by
  unfold openIfNeeded; split <;> rfl

@[simp]
theorem sealOpenFile_shards (st : PipelineState) :
    (sealOpenFile st).shards = st.shards := by
  unfold sealOpenFile; split <;> rfl

@[simp]
theorem sealOpenFile_processed (st : PipelineState) :
    (sealOpenFile st).total_processed_count = st.total_processed_count := by
  unfold sealOpenFile; split <;> rfl

@[simp]
theorem sealOpenFile_skipped (st : PipelineState) :
    (sealOpenFile st).total_skipped_count = st.total_skipped_count := by
  unfold sealOpenFile; split <;> rfl

@[simp]
theorem sealOpenFile_lc (st : PipelineState) :
    (sealOpenFile st).line_count_current_file = st.line_count_current_file := by
  unfold sealOpenFile; split <;> rfl

@[simp]
theorem sealOpenFile_fi (st : PipelineState) :
    (sealOpenFile st).file_index = st.file_index := by
  unfold sealOpenFile; split <;> rfl

@[simp]
theorem sealOpenFile_fileOpen (st : PipelineState) :
    (sealOpenFile st).fileOpen = false := by
  unfold sealOpenFile; split <;> simp_all

theorem appendToLast_concat (pre : List (Nat × List RequestLine)) (i : Nat)
    (ls : List RequestLine) (l : RequestLine) :
    appendToLast (pre ++ [(i, ls)]) l = pre ++ [(i, ls ++ [l])] := by
  induction pre with
  | nil => rfl
  | cons s pre ih =>
    cases pre with
    | nil => rfl
    | cons s2 pre2 => simpa [appendToLast] using ih

theorem appendToLast_length (sh : List (Nat × List RequestLine))
    (l : RequestLine) : (appendToLast sh l).length = sh.length := by
  induction sh with
  | nil => rfl
  | cons s sh ih =>
    cases sh with
    | nil => rfl
    | cons s2 sh2 => simpa [appendToLast] using ih

@[simp]
theorem totalLines_nil : totalLines [] = 0 := rfl

@[simp]
theorem totalLines_concat (pre : List (Nat × List RequestLine))
    (s : Nat × List RequestLine) :
    totalLines (pre ++ [s]) = totalLines pre + s.2.length := by
  simp [totalLines]

@[simp]
theorem allRequests_nil : allRequests [] = [] := rfl

@[simp]
theorem allRequests_concat (pre : List (Nat × List RequestLine))
    (s : Nat × List RequestLine) :
    allRequests (pre ++ [s]) = allRequests pre ++ s.2 := by
  simp [allRequests]

/-- The guard of line 168 never fires in a run from `initState`:
whenever lines have been written to the current chunk, a shard file
exists. -/
def shardsNonempty (st : PipelineState) : Prop :=
  st.line_count_current_file ≠ 0 → st.shards ≠ []

theorem totalLines_appendToLast (sh : List (Nat × List RequestLine))
    (l : RequestLine) (hs : sh ≠ []) :
    totalLines (appendToLast sh l) = totalLines sh + 1 := by
  obtain ⟨pre, s, hsh⟩ := sh.eq_nil_or_concat.resolve_left hs
  rw [List.concat_eq_append] at hsh
  subst hsh
  rw [appendToLast_concat pre s.1 s.2 l]
  simp [Nat.add_assoc]

theorem allRequests_appendToLast (sh : List (Nat × List RequestLine))
    (l : RequestLine) (hs : sh ≠ []) :
    allRequests (appendToLast sh l) = allRequests sh ++ [l] := by
  obtain ⟨pre, s, hsh⟩ := sh.eq_nil_or_concat.resolve_left hs
  rw [List.concat_eq_append] at hsh
  subst hsh
  rw [appendToLast_concat pre s.1 s.2 l]
  simp

theorem shardsNonempty_processRecord (m : Nat) (mn sp : String)
    (st : PipelineState) (r : MetadataRecord) (hs : shardsNonempty st) :
    shardsNonempty (processRecord m mn sp st r) := by
  cases he : recordEmits mn sp r with
  | none => intro h; simp only [processRecord, he] at *; exact hs h
  | some l =>
    intro _
    simp only [processRecord, he, rotateIfFull_shards]
    unfold writeLine
    simp only []
    have hne : (openIfNeeded st).shards ≠ [] := by
      unfold openIfNeeded
      split
      · simp
      · rename_i hlc
        exact hs hlc
    intro hnil
    apply hne
    have := appendToLast_length (openIfNeeded st).shards l
    rw [hnil] at this
    exact List.eq_nil_of_length_eq_zero this.symm

theorem linesInv_processRecord (m : Nat) (mn sp : String)
    (st : PipelineState) (r : MetadataRecord)
    (hl : totalLines st.shards = st.total_processed_count)
    (hs : shardsNonempty st) :
    totalLines (processRecord m mn sp st r).shards =
      (processRecord m mn sp st r).total_processed_count := by
  cases he : recordEmits mn sp r with
  | none => simpa only [processRecord, he] using hl
  | some l =>
    simp only [processRecord, he, rotateIfFull_shards, rotateIfFull_processed]
    have hne : (openIfNeeded st).shards ≠ [] := by
      unfold openIfNeeded
      split
      · simp
      · rename_i hlc
        exact hs hlc
    have hlo : totalLines (openIfNeeded st).shards = st.total_processed_count := by
      unfold openIfNeeded
      split
      · simpa using hl
      · exact hl
    unfold writeLine
    simp only []
    rw [totalLines_appendToLast _ _ hne, hlo, openIfNeeded_processed]

theorem counts_processRecord (m : Nat) (mn sp : String) (st : PipelineState)
    (r : MetadataRecord) :
    (processRecord m mn sp st r).total_processed_count +
      (processRecord m mn sp st r).total_skipped_count =
    st.total_processed_count + st.total_skipped_count + 1 := by
  cases he : recordEmits mn sp r with
  | none => simp only [processRecord, he]; omega
  | some l =>
    simp only [processRecord, he, rotateIfFull_processed, rotateIfFull_skipped]
    unfold writeLine
    simp only [openIfNeeded_skipped, openIfNeeded_processed]
    omega

theorem processItems_records (m : Nat) (mn sp : String)
    (rs : List MetadataRecord) :
    ∀ st, processItems m mn sp st (rs.map .record) =
      .ok (rs.foldl (processRecord m mn sp) st) := by
  induction rs with
  | nil => intro st; rfl
  | cons r rs ih => intro st; simpa [processItems] using ih _

theorem run_records_eq (m : Nat) (mn sp : String) (rs : List MetadataRecord)
    (st' : PipelineState)
    (h : convert_and_split_metadata m mn sp (.parsed (rs.map .record)) =
      .finished st') :
    st' = sealOpenFile (rs.foldl (processRecord m mn sp) initState) := by
  cases rs with
  | nil => exact absurd h (by simp [convert_and_split_metadata])
  | cons r rs =>
    have hp := processItems_records m mn sp (r :: rs) initState
    simp only [List.map_cons] at h hp
    simp only [convert_and_split_metadata, hp, RunOutcome.finished.injEq] at h
    exact h.symm

theorem linesInv_foldl (m : Nat) (mn sp : String) (rs : List MetadataRecord) :
    ∀ st, totalLines st.shards = st.total_processed_count →
      shardsNonempty st →
      totalLines ((rs.foldl (processRecord m mn sp) st)).shards =
          (rs.foldl (processRecord m mn sp) st).total_processed_count ∧
        shardsNonempty (rs.foldl (processRecord m mn sp) st) := by
  induction rs with
  | nil => exact fun st hl hs => ⟨hl, hs⟩
  | cons r rs ih =>
    intro st hl hs
    exact ih _ (linesInv_processRecord m mn sp st r hl hs)
      (shardsNonempty_processRecord m mn sp st r hs)

theorem counts_foldl (m : Nat) (mn sp : String) (rs : List MetadataRecord) :
    ∀ st, (rs.foldl (processRecord m mn sp) st).total_processed_count +
        (rs.foldl (processRecord m mn sp) st).total_skipped_count =
      st.total_processed_count + st.total_skipped_count + rs.length := by
  induction rs with
  | nil => intro st; rfl
  | cons r rs ih =>
    intro st
    rw [List.foldl_cons, ih _, counts_processRecord]
    simp only [List.length_cons]
    omega

/-- Reachability invariant of the writing loop for a positive chunk
capacity `m`: line counts versus shard contents, the full-chunk shape of
every shard but the last, the `file_index` arithmetic, and the
open/sealed bookkeeping of the output handle. -/
structure LoopInv (m : Nat) (st : PipelineState) : Prop where
  lines_eq : totalLines st.shards = st.total_processed_count
  lc_lt : st.line_count_current_file < m
  pre_full : ∀ s ∈ st.shards.dropLast, s.2.length = m
  last_len : ∀ s, st.shards.getLast? = some s →
    s.2.length =
      (if st.line_count_current_file = 0 then m else st.line_count_current_file)
  lc_shards : st.line_count_current_file ≠ 0 → st.shards ≠ []
  fi_eq : st.file_index =
    st.shards.length + (if st.line_count_current_file = 0 then 1 else 0)
  open_eq : st.fileOpen = !st.shards.isEmpty
  sealed_eq : st.sealedFiles + (if st.fileOpen then 1 else 0) = st.shards.length

theorem loopInv_init (m : Nat) (hm : 1 ≤ m) : LoopInv m initState :=
  { lines_eq := rfl
    lc_lt := hm
    pre_full := by intro s hs; simp [initState] at hs
    last_len := by intro s hs; simp [initState] at hs
    lc_shards := by intro h; exact absurd rfl h
    fi_eq := rfl
    open_eq := rfl
    sealed_eq := rfl }

@[simp]
theorem writeLine_skipped (l : RequestLine) (st : PipelineState) :
    (writeLine l st).total_skipped_count = st.total_skipped_count := rfl

@[simp]
theorem writeLine_processed (l : RequestLine) (st : PipelineState) :
    (writeLine l st).total_processed_count = st.total_processed_count + 1 := rfl

@[simp]
theorem writeLine_lc (l : RequestLine) (st : PipelineState) :
    (writeLine l st).line_count_current_file =
      st.line_count_current_file + 1 := rfl

@[simp]
theorem writeLine_fi (l : RequestLine) (st : PipelineState) :
    (writeLine l st).file_index = st.file_index := rfl

@[simp]
theorem writeLine_fileOpen (l : RequestLine) (st : PipelineState) :
    (writeLine l st).fileOpen = st.fileOpen := rfl

@[simp]
theorem writeLine_sealed (l : RequestLine) (st : PipelineState) :
    (writeLine l st).sealedFiles = st.sealedFiles := rfl

@[simp]
theorem writeLine_shards (l : RequestLine) (st : PipelineState) :
    (writeLine l st).shards = appendToLast st.shards l := rfl

theorem loopInv_all_full {m : Nat} {st : PipelineState} (hi : LoopInv m st)
    (hlc : st.line_count_current_file = 0) :
    ∀ s ∈ st.shards, s.2.length = m := by
  intro s hs
  rcases st.shards.eq_nil_or_concat with hnil | ⟨pre, last, hconcat⟩
  · rw [hnil] at hs; simp at hs
  · rw [List.concat_eq_append] at hconcat
    rw [hconcat] at hs
    rcases List.mem_append.mp hs with hpre | hlast
    · have := hi.pre_full s
      rw [hconcat, List.dropLast_concat] at this
      exact this hpre
    · have hl := hi.last_len last
      rw [hconcat, List.getLast?_concat] at hl
      have := hl rfl
      rw [hlc] at this
      simp at this
      rw [List.mem_singleton.mp hlast, this]

/-- After a request line has been written, the state satisfies the loop
invariant whatever the rotation decides, provided the shard list has the
shape `P ++ [(I, L ++ [l])]` with all of `P` full. -/
theorem loopInv_write (m : Nat) (st2 : PipelineState)
    (P : List (Nat × List RequestLine)) (I : Nat) (L : List RequestLine)
    (l : RequestLine)
    (hsh : st2.shards = P ++ [(I, L ++ [l])])
    (hPfull : ∀ s ∈ P, s.2.length = m)
    (hlc2 : st2.line_count_current_file = L.length + 1)
    (hlt : st2.line_count_current_file ≤ m)
    (hlines : st2.total_processed_count = totalLines P + L.length + 1)
    (hfi : st2.file_index = P.length + 1)
    (hopen2 : st2.fileOpen = true)
    (hsealed2 : st2.sealedFiles = P.length) :
    LoopInv m (rotateIfFull m st2) := by
  by_cases hrot : m ≤ st2.line_count_current_file
  · have hrotEq : rotateIfFull m st2 =
        { st2 with
          file_index := st2.file_index + 1
          line_count_current_file := 0 } := by
      simp [rotateIfFull, hrot]
    have hm2 : st2.line_count_current_file = m := le_antisymm hlt hrot
    rw [hrotEq]
    refine ⟨?_, ?_, ?_, ?_, ?_, ?_, ?_, ?_⟩
    · show totalLines st2.shards = st2.total_processed_count
      rw [hsh, totalLines_concat, hlines]
      simp [Nat.add_assoc]
    · show (0 : Nat) < m
      omega
    · show ∀ s ∈ st2.shards.dropLast, s.2.length = m
      rw [hsh, List.dropLast_concat]
      exact hPfull
    · show ∀ s, st2.shards.getLast? = some s → _
      rw [hsh, List.getLast?_concat]
      intro s hs
      rw [(Option.some.injEq _ _ ▸ hs : (I, L ++ [l]) = s).symm]
      simp only [if_pos rfl]
      simp
      omega
    · show (0 : Nat) ≠ 0 → st2.shards ≠ []
      intro h; exact absurd rfl h
    · show st2.file_index + 1 = st2.shards.length + _
      rw [hsh]
      simp [hfi]
    · show st2.fileOpen = !st2.shards.isEmpty
      rw [hopen2, hsh]
      simp
    · show st2.sealedFiles + (if st2.fileOpen then 1 else 0) = st2.shards.length
      rw [hopen2, hsealed2, hsh]
      simp
  · have hrotEq : rotateIfFull m st2 = st2 := by
      simp [rotateIfFull, hrot]
    rw [hrotEq]
    refine ⟨?_, ?_, ?_, ?_, ?_, ?_, ?_, ?_⟩
    · rw [hsh, totalLines_concat, hlines]
      simp [Nat.add_assoc]
    · omega
    · rw [hsh, List.dropLast_concat]
      exact hPfull
    · rw [hsh, List.getLast?_concat]
      intro s hs
      rw [(Option.some.injEq _ _ ▸ hs : (I, L ++ [l]) = s).symm]
      rw [if_neg (by omega)]
      simp [hlc2]
    · intro _
      rw [hsh]
      exact List.append_ne_nil_of_right_ne_nil _ (by simp)
    · rw [hsh, if_neg (by omega)]
      simp [hfi]
    · rw [hopen2, hsh]
      simp
    · rw [hopen2, hsealed2, hsh]
      simp

theorem loopInv_processRecord {m : Nat} (mn sp : String) (st : PipelineState)
    (r : MetadataRecord) (hi : LoopInv m st) :
    LoopInv m (processRecord m mn sp st r) := by
  cases he : recordEmits mn sp r with
  | none =>
    simp only [processRecord, he]
    exact ⟨hi.lines_eq, hi.lc_lt, hi.pre_full, hi.last_len, hi.lc_shards,
      hi.fi_eq, hi.open_eq, hi.sealed_eq⟩
  | some l =>
    simp only [processRecord, he]
    by_cases hlc : st.line_count_current_file = 0
    · have hopenEq : openIfNeeded st =
          { st with
            sealedFiles :=
              if st.fileOpen then st.sealedFiles + 1 else st.sealedFiles
            fileOpen := true
            shards := st.shards ++ [(st.file_index, [])] } := by
        simp [openIfNeeded, hlc]
    
      apply loopInv_write m _ st.shards st.file_index [] l
      · rw [writeLine_shards, hopenEq]
        show appendToLast (st.shards ++ [(st.file_index, [])]) l = _
        rw [appendToLast_concat]
      · exact loopInv_all_full hi hlc
      · rw [writeLine_lc, openIfNeeded_lc, hlc]
        rfl
      · rw [writeLine_lc, openIfNeeded_lc, hlc]
        have := hi.lc_lt
        omega
      · rw [writeLine_processed, openIfNeeded_processed, hi.lines_eq.symm]
        simp
      · rw [writeLine_fi, openIfNeeded_fi, hi.fi_eq, if_pos hlc]
      · rw [writeLine_fileOpen, hopenEq]
      · rw [writeLine_sealed, hopenEq]
        show (if st.fileOpen then st.sealedFiles + 1 else st.sealedFiles) = _
        have := hi.sealed_eq
        cases hfo : st.fileOpen <;> rw [hfo] at this <;> simp at this <;>
          simp [this]
    · obtain ⟨P, last, hconcat⟩ :=
        st.shards.eq_nil_or_concat.resolve_left (hi.lc_shards hlc)
      rw [List.concat_eq_append] at hconcat
      obtain ⟨I, L⟩ := last
      have hopenEq : openIfNeeded st = st := by
        simp [openIfNeeded, hlc]
      have hLlen : L.length = st.line_count_current_file := by
        have := hi.last_len (I, L)
        rw [hconcat, List.getLast?_concat] at this
        have := this rfl
        rw [if_neg hlc] at this
        exact this
      have hopenTrue : st.fileOpen = true := by
        rw [hi.open_eq, hconcat]
        simp
      apply loopInv_write m _ P I L l
      · rw [writeLine_shards, hopenEq, hconcat, appendToLast_concat]
      · intro s hs
        have := hi.pre_full s
        rw [hconcat, List.dropLast_concat] at this
        exact this hs
      · rw [writeLine_lc, openIfNeeded_lc, hLlen]
      · rw [writeLine_lc, openIfNeeded_lc]
        have := hi.lc_lt
        omega
      · rw [writeLine_processed, openIfNeeded_processed, hi.lines_eq.symm,
          hconcat, totalLines_concat]
      · rw [writeLine_fi, openIfNeeded_fi, hi.fi_eq, if_neg hlc, hconcat]
        simp
      · rw [writeLine_fileOpen, hopenEq, hopenTrue]
      · rw [writeLine_sealed, hopenEq]
        have := hi.sealed_eq
        rw [hopenTrue, hconcat] at this
        simp at this
        omega

theorem loopInv_foldl (m : Nat) (mn sp : String) (rs : List MetadataRecord) :
    ∀ st, LoopInv m st →
      LoopInv m (rs.foldl (processRecord m mn sp) st) := by
  induction rs with
  | nil => exact fun st hi => hi
  | cons r rs ih =>
    intro st hi
    exact ih _ (loopInv_processRecord mn sp st r hi)

theorem dropWhile_append_all (p : Char → Bool) (w l : List Char)
    (hw : ∀ c ∈ w, p c = true) :
    (w ++ l).dropWhile p = l.dropWhile p := by
  induction w with
  | nil => rfl
  | cons c w ih =>
    rw [List.cons_append, List.dropWhile_cons_of_pos (hw c (by simp))]
    exact ih (fun c hc => hw c (by simp [hc]))

/-- C3: for every input text, the first repair step doubles every
backslash that is not immediately followed by a double-quote character,
leaves every backslash immediately followed by a double quote untouched,
and changes nothing else: the scanning substitution of line 87 agrees
with the per-character description `specFixBackslashes`, and a text
without backslashes is returned unchanged. -/
theorem backslash_repair_spec (s : List Char) :
    fixBackslashes s = specFixBackslashes s ∧
    ((∀ c ∈ s, c ≠ '\\') → fixBackslashes s = s) := by
  constructor
  · induction s with
    | nil => rfl
    | cons c rest ih =>
      simp only [fixBackslashes, specFixBackslashes, doubledHere]
      by_cases hc : c = '\\'
      · by_cases hh : rest.head? = some '\"'
        · simp [hc, hh, ih]
        · simp [hc, hh, ih]
      · simp [hc, ih]
  · induction s with
    | nil => intro _; rfl
    | cons c rest ih =>
      intro hnb
      have hc : c ≠ '\\' := hnb c (List.mem_cons_self c rest)
      simp only [fixBackslashes, if_neg hc]
      rw [ih (fun c hc2 => hnb c (List.mem_cons_of_mem _ hc2))]

theorem backslash_repair_spec_witness :
    fixBackslashes ['a', '\"'] = ['a', '\"'] :=
  (backslash_repair_spec ['a', '\"']).2 (by decide)

/-- C4: after the backslash step the repair pass strips exactly the
characters whose code points lie in the C0 and C1 control ranges and no
others (the stripping step is the filter by the `inC0orC1` ranges), and
then removes trailing commas immediately before a closing array bracket:
a comma followed by whitespace and a closing bracket is replaced by the
bracket alone, the surrounding text being preserved. -/
theorem control_strip_and_trailing_commas (s : List Char) :
    repairJsonText s =
      removeTrailingCommas (stripControls (fixBackslashes s)) ∧
    (∀ t : List Char,
      stripControls t = t.filter (fun c => !(decide (inC0orC1 c.toNat)))) ∧
    (∀ a w b : List Char, ',' ∉ a → (∀ c ∈ w, isPySpace c = true) →
      removeTrailingCommas (a ++ ',' :: (w ++ ']' :: b)) =
        a ++ ']' :: removeTrailingCommas b) := by
  refine ⟨rfl, ?_, ?_⟩
  · intro t
    unfold stripControls
    apply List.filter_congr
    intro c _
    have hpt : isStrippedControl c = decide (inC0orC1 c.toNat) := by
      rw [Bool.eq_iff_iff]
      simp [isStrippedControl, inC0orC1]
      omega
    rw [hpt]
  · intro a w b
    induction a with
    | nil =>
      intro _ hw
      have hdw : ((w ++ ']' :: b).dropWhile isPySpace) = ']' :: b := by
        rw [dropWhile_append_all isPySpace w _ hw,
          List.dropWhile_cons_of_neg (by decide)]
      rw [List.nil_append, List.nil_append]
      rw [removeTrailingCommas]
      simp only [hdw, if_pos rfl]
      simp
    | cons x a ih =>
      intro ha hw
      have hx : x ≠ ',' := fun h => ha (h ▸ List.mem_cons_self x a)
      rw [List.cons_append, List.cons_append]
      rw [removeTrailingCommas]
      simp only [if_neg hx]
      rw [ih (fun hc => ha (List.mem_cons_of_mem _ hc)) hw]

theorem control_strip_and_trailing_commas_witness :
    removeTrailingCommas (['['] ++ ',' :: ([' '] ++ ']' :: [])) =
      ['['] ++ ']' :: removeTrailingCommas [] :=
  (control_strip_and_trailing_commas []).2.2 ['['] [' '] []
    (by decide) (by decide)

/-- C1: for every well-formed input array of mappings, the number of
request lines across all shard files of the final state equals the final
processed count, and the processed count plus the skipped count equals
the number of elements of the input array. -/
theorem pipeline_counts_correct (m : Nat) (mn sp : String)
    (rs : List MetadataRecord) (st' : PipelineState)
    (hrun : convert_and_split_metadata m mn sp (.parsed (rs.map .record)) =
      .finished st') :
    totalLines st'.shards = st'.total_processed_count ∧
    st'.total_processed_count + st'.total_skipped_count = rs.length := by
  have hst := run_records_eq m mn sp rs st' hrun
  subst hst
  constructor
  · rw [sealOpenFile_shards, sealOpenFile_processed]
    exact (linesInv_foldl m mn sp rs initState rfl
      (fun h => absurd rfl h)).1
  · rw [sealOpenFile_processed, sealOpenFile_skipped]
    have := counts_foldl m mn sp rs initState
    simpa [initState] using this

theorem pipeline_counts_correct_witness :
    totalLines (PipelineState.mk 0 1 1 0 false 0 []).shards =
        (PipelineState.mk 0 1 1 0 false 0 []).total_processed_count ∧
    (PipelineState.mk 0 1 1 0 false 0 []).total_processed_count +
        (PipelineState.mk 0 1 1 0 false 0 []).total_skipped_count =
      [MetadataRecord.mk none none none none].length :=
  pipeline_counts_correct 1 "glm-4-flash" DEFAULT_SYSTEM_PROMPT
    [MetadataRecord.mk none none none none]
    (PipelineState.mk 0 1 1 0 false 0 []) rfl

theorem loopInv_shard_bounds {m : Nat} {st : PipelineState}
    (hi : LoopInv m st) (hm : 1 ≤ m) :
    ∀ s ∈ st.shards, 1 ≤ s.2.length ∧ s.2.length ≤ m := by
  intro s hs
  rcases st.shards.eq_nil_or_concat with hnil | ⟨pre, last, hconcat⟩
  · rw [hnil] at hs; simp at hs
  · rw [List.concat_eq_append] at hconcat
    rw [hconcat] at hs
    rcases List.mem_append.mp hs with hpre | hlast
    · have hfull := hi.pre_full s
      rw [hconcat, List.dropLast_concat] at hfull
      have := hfull hpre
      omega
    · have hl := hi.last_len last
      rw [hconcat, List.getLast?_concat] at hl
      have hl2 := hl rfl
      rw [List.mem_singleton.mp hlast]
      by_cases hlc : st.line_count_current_file = 0
      · rw [if_pos hlc] at hl2; omega
      · rw [if_neg hlc] at hl2
        have := hi.lc_lt
        omega

/-- C2: for a positive chunk size, every created shard file holds at
least one and at most `max_lines` request lines, every shard but the
last holds exactly `max_lines` lines, and a shard is created only when a
request is written to it: in the spec example (chunk size 1, one valid
and one invalid record) exactly one shard file exists at the end, with
one record skipped. -/
theorem shard_capacity_bounds (m : Nat) (mn sp : String)
    (rs : List MetadataRecord) (st' : PipelineState) (hm : 1 ≤ m)
    (hrun : convert_and_split_metadata m mn sp (.parsed (rs.map .record)) =
      .finished st') :
    (∀ s ∈ st'.shards, 1 ≤ s.2.length ∧ s.2.length ≤ m) ∧
    (∀ s ∈ st'.shards.dropLast, s.2.length = m) ∧
    (∀ mn2 sp2 : String,
      ((convert_and_split_metadata 1 mn2 sp2 (.parsed
          [JsonItem.record ⟨some "p1", some "T", some "A B", none⟩,
           JsonItem.record ⟨some "p2", some "T2", none, none⟩])).state
        ).shards.length = 1 ∧
      ((convert_and_split_metadata 1 mn2 sp2 (.parsed
          [JsonItem.record ⟨some "p1", some "T", some "A B", none⟩,
           JsonItem.record ⟨some "p2", some "T2", none, none⟩])).state
        ).total_skipped_count = 1) := by
  have hst := run_records_eq m mn sp rs st' hrun
  subst hst
  have hi := loopInv_foldl m mn sp rs initState (loopInv_init m hm)
  refine ⟨?_, ?_, ?_⟩
  · rw [sealOpenFile_shards]
    exact loopInv_shard_bounds hi hm
  · rw [sealOpenFile_shards]
    exact hi.pre_full
  · exact fun mn2 sp2 => ⟨rfl, rfl⟩

theorem shard_capacity_bounds_witness :
    ((∀ s ∈ (PipelineState.mk 0 1 1 0 false 0 []).shards,
        1 ≤ s.2.length ∧ s.2.length ≤ 1) ∧
     (∀ s ∈ (PipelineState.mk 0 1 1 0 false 0 []).shards.dropLast,
        s.2.length = 1) ∧
     (∀ mn2 sp2 : String,
      ((convert_and_split_metadata 1 mn2 sp2 (.parsed
          [JsonItem.record ⟨some "p1", some "T", some "A B", none⟩,
           JsonItem.record ⟨some "p2", some "T2", none, none⟩])).state
        ).shards.length = 1 ∧
      ((convert_and_split_metadata 1 mn2 sp2 (.parsed
          [JsonItem.record ⟨some "p1", some "T", some "A B", none⟩,
           JsonItem.record ⟨some "p2", some "T2", none, none⟩])).state
        ).total_skipped_count = 1)) :=
  shard_capacity_bounds 1 "glm-4-flash" DEFAULT_SYSTEM_PROMPT
    [MetadataRecord.mk none none none none]
    (PipelineState.mk 0 1 1 0 false 0 []) (by decide) rfl

theorem extract_append_inj (a b : String)
    (h : "extract-" ++ a = "extract-" ++ b) : a = b := by
  have hd := congrArg String.data h
  rw [String.data_append, String.data_append] at hd
  have hdl := List.append_cancel_left hd
  cases a; cases b
  exact congrArg String.mk (by simpa using hdl)

theorem custom_id_of_emit {mn sp : String} {r : MetadataRecord}
    {l : RequestLine} (he : recordEmits mn sp r = some l) :
    l.custom_id = "extract-" ++ r.id.getD "" := by
  unfold recordEmits at he
  cases hv : (truthy r.id && truthy r.title && truthy r.abstract) with
  | false => rw [hv] at he; simp at he
  | true =>
    rw [hv] at he
    simp only [Bool.not_true, Bool.false_eq_true, if_false] at he
    cases hcp : create_user_prompt (r.title.getD "") r.author r.abstract with
    | none => rw [hcp] at he; simp at he
    | some uc =>
      rw [hcp] at he
      simp only [Option.some.injEq] at he
      rw [← he]
      rfl

theorem emit_id_truthy {mn sp : String} {r : MetadataRecord}
    {l : RequestLine} (he : recordEmits mn sp r = some l) :
    truthy r.id = true := by
  unfold recordEmits at he
  cases hv : (truthy r.id && truthy r.title && truthy r.abstract) with
  | false => rw [hv] at he; simp at he
  | true => exact ((Bool.and_eq_true _ _).mp
      ((Bool.and_eq_true _ _).mp hv).1).1

theorem allRequests_processRecord (m : Nat) (mn sp : String)
    (st : PipelineState) (r : MetadataRecord) (hs : shardsNonempty st) :
    allRequests (processRecord m mn sp st r).shards =
      allRequests st.shards ++ (recordEmits mn sp r).toList := by
  cases he : recordEmits mn sp r with
  | none => simp [processRecord, he]
  | some l =>
    simp only [processRecord, he, rotateIfFull_shards, writeLine_shards]
    have hne : (openIfNeeded st).shards ≠ [] := by
      unfold openIfNeeded
      split
      · simp
      · rename_i hlc
        exact hs hlc
    rw [allRequests_appendToLast _ _ hne]
    have hsame : allRequests (openIfNeeded st).shards = allRequests st.shards := by
      unfold openIfNeeded
      split
      · simp
      · rfl
    rw [hsame]
    rfl

theorem allRequests_foldl (m : Nat) (mn sp : String)
    (rs : List MetadataRecord) :
    ∀ st, shardsNonempty st →
      allRequests (rs.foldl (processRecord m mn sp) st).shards =
        allRequests st.shards ++ rs.filterMap (recordEmits mn sp) := by
  induction rs with
  | nil => intro st _; simp
  | cons r rs ih =>
    intro st hs
    rw [List.foldl_cons, ih _ (shardsNonempty_processRecord m mn sp st r hs),
      allRequests_processRecord m mn sp st r hs]
    cases he : recordEmits mn sp r with
    | none => simp [he, Option.toList]
    | some l => simp [he, Option.toList]

theorem nodup_emit_ids (mn sp : String) :
    ∀ rs : List MetadataRecord, (rs.map MetadataRecord.id).Nodup →
      ((rs.filterMap (recordEmits mn sp)).map RequestLine.custom_id).Nodup := by
  intro rs
  induction rs with
  | nil => intro _; simp
  | cons r rs ih =>
    intro hnd
    rw [List.map_cons, List.nodup_cons] at hnd
    obtain ⟨hnotin, hnd⟩ := hnd
    cases he : recordEmits mn sp r with
    | none => rw [List.filterMap_cons_none he]; exact ih hnd
    | some l =>
      rw [List.filterMap_cons_some he, List.map_cons, List.nodup_cons]
      refine ⟨?_, ih hnd⟩
      intro hmem
      rw [List.mem_map] at hmem
      obtain ⟨l2, hl2mem, hceq⟩ := hmem
      obtain ⟨r2, hr2, he2⟩ := List.mem_filterMap.mp hl2mem
      have h1 := custom_id_of_emit he
      have h2 := custom_id_of_emit he2
      have hidEq : r2.id.getD "" = r.id.getD "" := by
        apply extract_append_inj
        rw [← h1, ← h2, hceq]
      have ht1 := emit_id_truthy he
      have ht2 := emit_id_truthy he2
      have hsame : r2.id = r.id := by
        cases hr1 : r.id with
        | none => rw [hr1] at ht1; simp [truthy] at ht1
        | some s1 =>
          cases hr2b : r2.id with
          | none => rw [hr2b] at ht2; simp [truthy] at ht2
          | some s2 =>
            rw [hr1, hr2b] at hidEq
            simp at hidEq
            exact congrArg some hidEq
      exact hnotin (List.mem_map.mpr ⟨r2, hr2, hsame⟩)

/-- C5: under unique record ids, every emitted request has `custom_id`
equal to `"extract-"` concatenated with the record id, and the
`custom_id` values across the whole run are pairwise distinct. -/
theorem custom_ids_unique (m : Nat) (mn sp : String)
    (rs : List MetadataRecord) (st' : PipelineState)
    (hids : (rs.map MetadataRecord.id).Nodup)
    (hrun : convert_and_split_metadata m mn sp (.parsed (rs.map .record)) =
      .finished st') :
    (∀ l ∈ allRequests st'.shards, ∃ r ∈ rs,
        l.custom_id = "extract-" ++ r.id.getD "") ∧
    ((allRequests st'.shards).map RequestLine.custom_id).Nodup := by
  have hst := run_records_eq m mn sp rs st' hrun
  subst hst
  rw [sealOpenFile_shards,
    allRequests_foldl m mn sp rs initState (fun h => absurd rfl h),
    show allRequests initState.shards = [] from rfl, List.nil_append]
  constructor
  · intro l hl
    obtain ⟨r, hr, he⟩ := List.mem_filterMap.mp hl
    exact ⟨r, hr, custom_id_of_emit he⟩
  · exact nodup_emit_ids mn sp rs hids

theorem custom_ids_unique_witness :
    (∀ l ∈ allRequests ((convert_and_split_metadata 1 "glm-4-flash"
        DEFAULT_SYSTEM_PROMPT (.parsed
          [JsonItem.record ⟨some "p1", some "T", some "A", none⟩])).state).shards,
      ∃ r ∈ [(⟨some "p1", some "T", some "A", none⟩ : MetadataRecord)],
        l.custom_id = "extract-" ++ r.id.getD "") ∧
    ((allRequests ((convert_and_split_metadata 1 "glm-4-flash"
        DEFAULT_SYSTEM_PROMPT (.parsed
          [JsonItem.record ⟨some "p1", some "T", some "A", none⟩])).state).shards).map
      RequestLine.custom_id).Nodup :=
  custom_ids_unique 1 "glm-4-flash" DEFAULT_SYSTEM_PROMPT
    [⟨some "p1", some "T", some "A", none⟩] _ (by simp) rfl

/-- C6: a record with absent or falsy `_id`, `title` or `abstract`, or
with an abstract that is empty after trimming (prompt construction
returns `none`), is skipped with the skip counter incremented and the
loop continues with the remaining items; and for a processed record with
no author value the rendered user prompt carries the literal placeholder
`"N/A"` in the author position of the template. -/
theorem record_skip_and_na_placeholder (m : Nat) (mn sp : String)
    (st : PipelineState) (rest : List JsonItem) (r : MetadataRecord) :
    ((truthy r.id && truthy r.title && truthy r.abstract) = false →
      processItems m mn sp st (.record r :: rest) =
        processItems m mn sp
          { st with total_skipped_count := st.total_skipped_count + 1 } rest) ∧
    (create_user_prompt (r.title.getD "") r.author r.abstract = none →
      processItems m mn sp st (.record r :: rest) =
        processItems m mn sp
          { st with total_skipped_count := st.total_skipped_count + 1 } rest) ∧
    (∀ t ab : String, pyStripStr ab ≠ "" →
      create_user_prompt t none (some ab) =
        some (promptBeforeAuthors t ++ "N/A" ++
          promptAfterAuthors (pyStripStr ab))) := by
  refine ⟨?_, ?_, ?_⟩
  · intro h
    have he : recordEmits mn sp r = none := by
      unfold recordEmits
      rw [h]
      rfl
    simp [processItems, processRecord, he]
  · intro h
    have he : recordEmits mn sp r = none := by
      unfold recordEmits
      cases hv : (truthy r.id && truthy r.title && truthy r.abstract) with
      | false => rfl
      | true => rw [h]; rfl
    simp [processItems, processRecord, he]
  · intro t ab hne
    have hab : ab ≠ "" := by
      intro h
      apply hne
      rw [h]
      rfl
    simp only [create_user_prompt, if_neg hab, if_neg hne]
    rfl

theorem record_skip_and_na_placeholder_witness :
    (processItems 1 "glm-4-flash" DEFAULT_SYSTEM_PROMPT initState
        [JsonItem.record ⟨none, none, none, none⟩] =
      processItems 1 "glm-4-flash" DEFAULT_SYSTEM_PROMPT
        { initState with
          total_skipped_count := initState.total_skipped_count + 1 } []) ∧
    create_user_prompt "T" none (some " A ") =
      some (promptBeforeAuthors "T" ++ "N/A" ++
        promptAfterAuthors (pyStripStr " A ")) :=
  ⟨(record_skip_and_na_placeholder 1 "glm-4-flash" DEFAULT_SYSTEM_PROMPT
      initState [] ⟨none, none, none, none⟩).1 (by decide),
   (record_skip_and_na_placeholder 1 "glm-4-flash" DEFAULT_SYSTEM_PROMPT
      initState [] ⟨none, none, none, none⟩).2.2 "T" " A " (by decide)⟩

/-- C7: when the repaired text fails to parse, or parses to a value that
is not a list, the run returns through the corresponding diagnostic path
with the initial state: no shard file is created and nothing is
processed. -/
theorem malformed_input_aborts (m : Nat) (mn sp : String) :
    convert_and_split_metadata m mn sp .parseError = .invalidJson initState ∧
    convert_and_split_metadata m mn sp .notAList = .inputNotList initState ∧
    (convert_and_split_metadata m mn sp .parseError).state.shards = [] ∧
    (convert_and_split_metadata m mn sp .notAList).state.shards = [] ∧
    (convert_and_split_metadata m mn sp
      .parseError).state.total_processed_count = 0 ∧
    (convert_and_split_metadata m mn sp
      .notAList).state.total_processed_count = 0 :=
  ⟨rfl, rfl, rfl, rfl, rfl, rfl⟩

/-- C8 counterexample: with `max_lines = 1` and a single valid record,
the write fills the chunk and the rotation of lines 182-184 runs (the
line count is reset to zero and the shard index advanced to 2), yet at
that point the full shard file is still open and nothing has been
sealed: the close is deferred to the start of the next iteration or to
the end of the run (line 185 of the source). -/
theorem seal_at_rotation_counterexample :
    (processRecord 1 "glm-4-flash" DEFAULT_SYSTEM_PROMPT initState
        ⟨some "p1", some "T", some "A", none⟩).line_count_current_file = 0 ∧
    (processRecord 1 "glm-4-flash" DEFAULT_SYSTEM_PROMPT initState
        ⟨some "p1", some "T", some "A", none⟩).file_index = 2 ∧
    (processRecord 1 "glm-4-flash" DEFAULT_SYSTEM_PROMPT initState
        ⟨some "p1", some "T", some "A", none⟩).fileOpen = true ∧
    (processRecord 1 "glm-4-flash" DEFAULT_SYSTEM_PROMPT initState
        ⟨some "p1", some "T", some "A", none⟩).sealedFiles = 0 :=
  ⟨rfl, rfl, rfl, rfl⟩

/-- C8 amended: when the line count of the current shard reaches
`max_lines` the writer resets the count to zero and increments the shard
index, and the index is unchanged by a write that does not fill the
chunk; the shard file is not closed at that point — a write never closes
the file it writes to, the previous shard is sealed at the start of the
write that opens the next shard, and whatever file is open at the end of
the run is sealed by the driver. -/
theorem rotation_defers_seal (m : Nat) (mn sp : String) (st : PipelineState)
    (r : MetadataRecord) (l : RequestLine)
    (he : recordEmits mn sp r = some l) :
    ((m ≤ st.line_count_current_file + 1 →
        (processRecord m mn sp st r).line_count_current_file = 0 ∧
        (processRecord m mn sp st r).file_index = st.file_index + 1) ∧
     (¬ m ≤ st.line_count_current_file + 1 →
        (processRecord m mn sp st r).line_count_current_file =
          st.line_count_current_file + 1 ∧
        (processRecord m mn sp st r).file_index = st.file_index) ∧
     (processRecord m mn sp st r).fileOpen =
       (if st.line_count_current_file = 0 then true else st.fileOpen) ∧
     (processRecord m mn sp st r).sealedFiles =
       (if st.line_count_current_file = 0 ∧ st.fileOpen = true then
          st.sealedFiles + 1 else st.sealedFiles) ∧
     (∀ parse : ParseOutcome,
        (convert_and_split_metadata m mn sp parse).state.fileOpen = false)) := by
  refine ⟨?_, ?_, ?_, ?_, ?_⟩
  · intro hrot
    simp only [processRecord, he]
    constructor
    · simp only [rotateIfFull, writeLine_lc, openIfNeeded_lc,
        if_pos hrot]
    · simp only [rotateIfFull, writeLine_lc, openIfNeeded_lc,
        if_pos hrot, writeLine_fi, openIfNeeded_fi]
  · intro hrot
    simp only [processRecord, he]
    constructor
    · simp only [rotateIfFull, writeLine_lc, openIfNeeded_lc,
        if_neg hrot]
    · simp only [rotateIfFull, writeLine_lc, openIfNeeded_lc,
        if_neg hrot, writeLine_fi, openIfNeeded_fi]
  · simp only [processRecord, he, rotateIfFull_fileOpen, writeLine_fileOpen]
    unfold openIfNeeded
    by_cases hlc : st.line_count_current_file = 0 <;> simp [hlc]
  · simp only [processRecord, he, rotateIfFull_sealed, writeLine_sealed]
    unfold openIfNeeded
    by_cases hlc : st.line_count_current_file = 0 <;>
      cases hfo : st.fileOpen <;> simp [hlc, hfo]
  · intro parse
    cases parse with
    | parseError => rfl
    | notAList => rfl
    | parsed items =>
      cases items with
      | nil => rfl
      | cons i is =>
        simp only [convert_and_split_metadata]
        cases processItems m mn sp initState (i :: is) <;>
          simp [RunOutcome.state]

theorem rotation_defers_seal_witness :
    (processRecord 1 "glm-4-flash" DEFAULT_SYSTEM_PROMPT initState
        ⟨some "p2", some "T2", some "B", none⟩).line_count_current_file = 0 ∧
    (processRecord 1 "glm-4-flash" DEFAULT_SYSTEM_PROMPT initState
        ⟨some "p2", some "T2", some "B", none⟩).file_index =
      initState.file_index + 1 :=
  (rotation_defers_seal 1 "glm-4-flash" DEFAULT_SYSTEM_PROMPT initState
    ⟨some "p2", some "T2", some "B", none⟩
    (mkRequestLine "p2"
      (promptBeforeAuthors "T2" ++ "N/A" ++ promptAfterAuthors "B")
      "glm-4-flash" DEFAULT_SYSTEM_PROMPT) rfl).1 (by decide)

/-- C9: the final summary miscounts the shard files.  With chunk size 1
and one valid record, exactly one shard file is created, but the
reported count (`final_file_count`, line 215, whose conditional has two
identical branches and always yields `file_index`) is 2. -/
theorem reported_file_count_bug :
    reportedFileCount ((convert_and_split_metadata 1 "glm-4-flash"
        DEFAULT_SYSTEM_PROMPT (.parsed
          [JsonItem.record ⟨some "p1", some "T", some "A", none⟩])).state) = 2 ∧
    ((convert_and_split_metadata 1 "glm-4-flash" DEFAULT_SYSTEM_PROMPT
        (.parsed [JsonItem.record ⟨some "p1", some "T", some "A", none⟩])
      ).state).shards.length = 1 :=
  ⟨rfl, rfl⟩

theorem processItems_nonMapping (m : Nat) (mn sp : String)
    (pre : List MetadataRecord) (rest : List JsonItem) :
    ∀ st, processItems m mn sp st (pre.map .record ++ .nonMapping :: rest) =
      .abortedNonMapping (pre.foldl (processRecord m mn sp) st) := by
  induction pre with
  | nil => intro st; rfl
  | cons r pre ih => intro st; simpa [processItems] using ih _

/-- C10: an array element that is not a mapping aborts the run through
the generic exception handler: the loop stops at the first non-mapping
element carrying the state reached so far (no skip is recorded for it),
the remaining items are never processed, and the driver reports the
unexpected-error outcome with the open shard closed. -/
theorem non_mapping_aborts (m : Nat) (mn sp : String) (st : PipelineState)
    (pre : List MetadataRecord) (rest : List JsonItem) :
    processItems m mn sp st (pre.map .record ++ .nonMapping :: rest) =
      .abortedNonMapping (pre.foldl (processRecord m mn sp) st) ∧
    convert_and_split_metadata m mn sp
        (.parsed (pre.map .record ++ .nonMapping :: rest)) =
      .unexpectedError
        (sealOpenFile (pre.foldl (processRecord m mn sp) initState)) := by
  refine ⟨processItems_nonMapping m mn sp pre rest st, ?_⟩
  have hp := processItems_nonMapping m mn sp pre rest initState
  cases pre with
  | nil =>
    simp only [List.map_nil, List.nil_append] at hp ⊢
    simp only [convert_and_split_metadata, hp]
  | cons r pre =>
    simp only [List.map_cons, List.cons_append] at hp ⊢
    simp only [convert_and_split_metadata, hp]
